import Mathlib

/-!
Verification of the rotating-calipers minimum-distance core
(`src/geo/src/algorithm/polygon_distance_fast_path.rs`).

The Rust source is shallowly embedded over the exact reals: the generic
float type `T` becomes `ℝ`, except for the `dist` field of the caliper
state, which is the only place the code stores `T::infinity()`; it is
embedded as `EReal` so that the initial value `+infinity` and the
comparisons `newdist <= state.dist` are represented exactly.  External
collaborators of the core (orientation kernel, point/segment distance,
slope, signed triangle area, extreme-point query) are not part of the
source tree; they are modelled from the spec where marked.
-/

noncomputable section

namespace Geo

/-- Planar point / coordinate (geo `Point` and `Coord` collapse to one type). -/
structure Pt where
  x : ℝ
  y : ℝ

/-- Orientation of an ordered point triple, as returned by the kernel. -/
inductive Orientation where
  | Clockwise
  | CounterClockwise
  | Collinear
deriving DecidableEq

/-- Modelled from the spec: the robust orientation kernel (external
collaborator, `orient2d`).  Over exact reals it is the sign of the
cross-product determinant; a positive determinant means the triple turns
counter-clockwise. -/
def orient2d (a b c : Pt) : Orientation :=
  let det := (b.x - a.x) * (c.y - a.y) - (b.y - a.y) * (c.x - a.x)
  if 0 < det then Orientation.CounterClockwise
  else if det < 0 then Orientation.Clockwise
  else Orientation.Collinear

/-- Source `clockwise`: is p1 -> p2 -> p3 wound clockwise? -/
def clockwise (c1 c2 c3 : Pt) : Bool :=
  orient2d c1 c2 c3 = Orientation.Clockwise

/-- A polygon is its closed exterior ring of coordinates (first = last). -/
structure Polygon where
  exterior : List Pt

/-- Ring lookup `poly.exterior().0[i]` (out-of-range reads, which panic in
Rust, return a default point; no claim depends on them). -/
def vtx (poly : Polygon) (i : Nat) : Pt :=
  poly.exterior.getD i ⟨0, 0⟩

/-- Source `prev_vertex`: wrap-around previous polygon index. -/
def prev_vertex (poly : Polygon) (current_vertex : Nat) : Nat :=
  (current_vertex + (poly.exterior.length - 1) - 1) % (poly.exterior.length - 1)

/-- Source `next_vertex`: wrap-around next polygon index. -/
def next_vertex (poly : Polygon) (current_vertex : Nat) : Nat :=
  (current_vertex + 1) % (poly.exterior.length - 1)

/-- Modelled from the spec: slope of the line from `a` to `b`
(external collaborator `Line::slope`, dy/dx). -/
def lineSlope (a b : Pt) : ℝ :=
  (b.y - a.y) / (b.x - a.x)

/-- Modelled from the spec: signed triangle area (external collaborator
`Triangle::signed_area`), positive for counter-clockwise triples. -/
def signedArea (a b c : Pt) : ℝ :=
  ((b.x - a.x) * (c.y - a.y) - (c.x - a.x) * (b.y - a.y)) / 2

/-- Modelled from the spec: point-to-point Euclidean distance
(external collaborator `euclidean_distance`). -/
def euclidean_distance (p q : Pt) : ℝ :=
  Real.sqrt ((p.x - q.x) ^ 2 + (p.y - q.y) ^ 2)

/-- Modelled from the spec: point-to-segment Euclidean distance
(external collaborator `Point::euclidean_distance(&Line)`): distance from
`v` to the closest point of segment `p`-`q`. -/
def segDistance (v p q : Pt) : ℝ :=
  let dx := q.x - p.x
  let dy := q.y - p.y
  if dx = 0 ∧ dy = 0 then euclidean_distance v p
  else
    let t := ((v.x - p.x) * dx + (v.y - p.y) * dy) / (dx ^ 2 + dy ^ 2)
    let tc := max 0 (min 1 t)
    euclidean_distance v ⟨p.x + tc * dx, p.y + tc * dy⟩

/-- Source `vertex_line_distance`: minimum distance between a vertex and an
imaginary line drawn from p to q. -/
def vertex_line_distance (v p q : Pt) : ℝ :=
  segDistance v p q

/-- Source `unitvector` (lines 134-279): the point 100 units from `p` along
the line of the given slope, with the sign of the cos/sin components chosen
by the nested cascade on the positions of the neighbouring vertices and the
local winding.  The Rust mutation of `cos`/`sin` is rendered as a nested
conditional producing the final (cos, sin) pair. -/
def unitvector (slope : ℝ) (poly : Polygon) (p : Pt) (idx : Nat) : Pt :=
  let tansq := slope ^ 2
  let cossq := 1 / (1 + tansq)
  let sinsq := 1 - cossq
  let pnext := vtx poly (next_vertex poly idx)
  let pprev := vtx poly (prev_vertex poly idx)
  let cw := clockwise pprev p pnext
  let cs : ℝ × ℝ :=
    if slope ≠ 0 then
      -- Slope is not 0, things are complicated
      let c := Real.sqrt cossq
      let s := Real.sqrt sinsq
      if pnext.x > p.x then
        if pprev.x > p.x then
          if pprev.y ≥ p.y ∧ pnext.y ≥ p.y then
            if slope > 0 then
              let slope_prev := lineSlope p pprev
              if (cw ∧ slope ≤ slope_prev) ∨ (¬cw ∧ slope ≥ slope_prev) then (-c, -s)
              else if cw then (-c, s)
              else (c, -s)
            else (c, s)
          else if pprev.y ≤ p.y ∧ pnext.y ≤ p.y then
            if slope > 0 then
              if ¬cw then (-c, -s) else (c, s)
            else
              let slope_prev := lineSlope p pprev
              let slope_next := lineSlope p pnext
              if cw then
                if slope ≤ slope_prev then (-c, s) else (c, -s)
              else if slope ≤ slope_next then (c, -s)
              else (-c, s)
          else if slope > 0 then
            if ¬cw then (-c, -s) else (c, s)
          else if cw then (-c, s)
          else (c, -s)
        else if slope < 0 then (c, -s)
        else (c, s)
      else if pnext.x < p.x then
        if pprev.x < p.x then
          if pprev.y ≥ p.y ∧ pnext.y ≥ p.y then
            if slope > 0 then
              if cw then (-c, -s) else (c, s)
            else
              let slope_prev := lineSlope p pprev
              let slope_next := lineSlope p pnext
              if cw then
                if slope ≤ slope_prev then (c, -s) else (-c, s)
              else if slope ≤ slope_next then (-c, s)
              else (c, -s)
          else if pprev.y ≤ p.y ∧ pnext.y ≤ p.y then
            if slope > 0 then
              let slope_next := lineSlope p pnext
              if slope ≥ slope_next then (-c, -s) else (c, s)
            else if cw then (c, -s)
            else (-c, s)
          else if slope > 0 then
            if cw then (-c, -s) else (c, s)
          else if cw then (c, -s)
          else (-c, s)
        else
          -- pprev.x >= p.x
          if slope > 0 then (-c, -s) else (-c, s)
      else if pprev.x > p.x then
        if slope > 0 then (-c, -s) else (-c, s)
      else if slope < 0 then (c, -s)
      else (c, s)
    else
      -- Slope is 0, things are fairly simple
      if pnext.x > p.x then (1, 0)
      else if pnext.x < p.x then (-1, 0)
      else if pnext.x = p.x then
        if pprev.x < p.x then (1, 0) else (-1, 0)
      else (0, 0)
  ⟨p.x + 100 * cs.1, p.y + 100 * cs.2⟩

/-- Source `unitpvector` (lines 282-329): perpendicular unit vector of a
vertex and a unit vector. -/
def unitpvector (p u : Pt) : Pt :=
  let vertical := p.x = u.x
  let slope := if vertical ∨ p.y = u.y then 0 else lineSlope p u
  if vertical then
    if u.y > p.y then ⟨p.x + 100, p.y⟩ else ⟨p.x - 100, p.y⟩
  else if slope = 0 then
    if u.x > p.x then ⟨p.x, p.y - 100⟩ else ⟨p.x, p.y + 100⟩
  else
    -- Not a special case
    let sperp := -1 / slope
    let tansq := sperp * sperp
    let cossq := 1 / (1 + tansq)
    let sinsq := 1 - cossq
    let c := Real.sqrt cossq
    let s := Real.sqrt sinsq
    if u.x > p.x then
      if slope < 0 then ⟨p.x + 100 * (-c), p.y + 100 * (-s)⟩
      else ⟨p.x + 100 * c, p.y + 100 * (-s)⟩
    else if slope > 0 then ⟨p.x + 100 * (-c), p.y + 100 * s⟩
    else ⟨p.x + 100 * c, p.y + 100 * s⟩

/-- The sine clamp of `vertex_line_angle` (source lines 380-382): the
out-of-range test replaces the sine by `1` in both directions. -/
def clampSine (s : ℝ) : ℝ :=
  if s < -1 ∨ 1 < s then 1 else s

/-- The caliper unit-vector point `punit` used by `vertex_line_angle`
(source lines 340-375): `unitvector` when the support line is not vertical,
otherwise an axis-aligned case split on the predecessor vertex and the
local winding. -/
def punitFor (poly : Polygon) (p : Pt) (m : ℝ) (vertical : Bool) (idx : Nat) : Pt :=
  let pprev := vtx poly (prev_vertex poly idx)
  let pnext := vtx poly (next_vertex poly idx)
  let cw := clockwise pprev p pnext
  if ¬vertical then unitvector m poly p idx
  else if cw then
    if p.x > pprev.x then ⟨p.x, p.y - 100⟩
    else if p.x = pprev.x then
      if p.y > pprev.y then ⟨p.x, p.y + 100⟩ else ⟨p.x, p.y - 100⟩
    else ⟨p.x, p.y + 100⟩
  else if p.x > pprev.x then ⟨p.x, p.y + 100⟩
  else if p.x = pprev.x then
    if p.y > pprev.y then ⟨p.x, p.y + 100⟩ else ⟨p.x, p.y - 100⟩
  else ⟨p.x, p.y - 100⟩

/-- Source `vertex_line_angle` (lines 332-404): angle between a vertex and
an edge. -/
def vertex_line_angle (poly : Polygon) (p : Pt) (m : ℝ) (vertical : Bool) (idx : Nat) : ℝ :=
  let pnext := vtx poly (next_vertex poly idx)
  let pprev := vtx poly (prev_vertex poly idx)
  let cw := clockwise pprev p pnext
  let punit := punitFor poly p m vertical idx
  let triarea := signedArea p punit pnext
  let edgelen := euclidean_distance p pnext
  let sine := clampSine (triarea / ((1 / 2) * 100 * edgelen))
  let perpunit := unitpvector p punit
  let left := orient2d p perpunit pnext
  let obtuse := left = Orientation.Clockwise
  if cw then
    if left = Orientation.Collinear then Real.pi / 2
    else if ¬obtuse then Real.arcsin (-sine)
    else Real.pi - Real.arcsin (-sine)
  else if left = Orientation.Collinear then Real.pi / 2
  else if ¬obtuse then Real.arcsin sine
  else Real.pi - Real.arcsin sine

/-- The clamped sine ratio computed inside `vertex_line_angle` (source
lines 376-382): the signed area of the triangle (vertex, unit-vector
point, successor) divided by one half times 100 times the edge length,
then clamped.  Named so that theorems can speak about the intermediate
value; identical to the `sine` local of `vertex_line_angle`. -/
def caliperSine (poly : Polygon) (p : Pt) (m : ℝ) (vertical : Bool) (idx : Nat) : ℝ :=
  clampSine (signedArea p (punitFor poly p m vertical idx) (vtx poly (next_vertex poly idx)) /
    ((1 / 2) * 100 * euclidean_distance p (vtx poly (next_vertex poly idx))))

/-- The orientation test of `vertex_line_angle` (source line 385): the
orientation of the successor vertex against the perpendicular unit vector;
identical to the `left` local of `vertex_line_angle`. -/
def caliperLeft (poly : Polygon) (p : Pt) (m : ℝ) (vertical : Bool) (idx : Nat) : Orientation :=
  orient2d p (unitpvector p (punitFor poly p m vertical idx)) (vtx poly (next_vertex poly idx))

/-- The final branch of `vertex_line_angle` (source lines 389-403) as a
function of the winding flag, the orientation test result and the clamped
sine: `vertex_line_angle` is definitionally `angleFromParts` applied to its
`cw`, `left` and `sine` locals. -/
def angleFromParts (cw : Bool) (left : Orientation) (sine : ℝ) : ℝ :=
  if cw then
    if left = Orientation.Collinear then Real.pi / 2
    else if ¬(left = Orientation.Clockwise) then Real.arcsin (-sine)
    else Real.pi - Real.arcsin (-sine)
  else if left = Orientation.Collinear then Real.pi / 2
  else if ¬(left = Orientation.Clockwise) then Real.arcsin sine
  else Real.pi - Real.arcsin sine

/-- Which side(s) of the caliper pair coincide with a polygon edge. -/
inductive AlignedEdge where
  | VertexP
  | VertexQ
  | Edge
deriving DecidableEq

/-- Source `Polydist`: the distance-finding state.  The `dist` field is the
only slot the source ever fills with `T::infinity()`, so it is embedded as
`EReal`; every other numeric field stays `ℝ`. -/
structure Polydist where
  poly1 : Polygon
  poly2 : Polygon
  dist : EReal
  p1_idx : Nat
  q2_idx : Nat
  p1 : Pt
  q2 : Pt
  p1next : Pt
  q2next : Pt
  p1prev : Pt
  q2prev : Pt
  alignment : Option AlignedEdge
  ap1 : ℝ
  aq2 : ℝ
  start : Option Bool
  ip1 : Bool
  iq2 : Bool
  slope : ℝ
  vertical : Bool
  angle : ℝ
  max_iterations : Nat

/-- The comparison tolerance `T::epsilon()`; for `f64` this is the machine
epsilon 2 to the power -52. -/
def eps : ℝ := 1 / 2 ^ 52

/-- The repeated update pattern `if newdist <= state.dist { state.dist =
newdist }` of `computemin`, with the finite candidate compared against the
possibly infinite current minimum. -/
def updMin (newdist : ℝ) (d : EReal) : EReal :=
  if (newdist : EReal) ≤ d then (newdist : EReal) else d

/-- Source `nextpoints` (lines 407-497): calculate the next set of caliper
points.  Each Rust field assignment becomes a record update; updates that
read fields assigned earlier in the same call are chained through
intermediate states exactly as the source executes them. -/
def nextpoints (state : Polydist) : Polydist :=
  let st0 := { state with alignment := some AlignedEdge.VertexP, ip1 := false, iq2 := false }
  let ap1 := vertex_line_angle st0.poly1 st0.p1 st0.slope st0.vertical st0.p1_idx
  let aq2 := vertex_line_angle st0.poly2 st0.q2 st0.slope st0.vertical st0.q2_idx
  let minangle := min ap1 aq2
  let st1 := { st0 with ap1 := ap1, aq2 := aq2, angle := st0.angle + minangle,
                        p1prev := st0.p1, p1next := st0.p1,
                        q2prev := st0.q2, q2next := st0.q2 }
  let st2 :=
    if |ap1 - minangle| < eps then
      { st1 with ip1 := true,
                 p1next := vtx st1.poly1 (next_vertex st1.poly1 st1.p1_idx),
                 p1_idx := next_vertex st1.poly1 st1.p1_idx,
                 alignment := some AlignedEdge.VertexP }
    else st1
  let st3 :=
    if |aq2 - minangle| < eps then
      { st2 with iq2 := true,
                 q2next := vtx st2.poly2 (next_vertex st2.poly2 st2.q2_idx),
                 q2_idx := next_vertex st2.poly2 st2.q2_idx,
                 alignment := match st2.alignment with
                   | none => some AlignedEdge.VertexQ
                   | some _ => some AlignedEdge.Edge }
    else st2
  let st4 :=
    if st3.ip1 then
      if st3.p1.x = st3.p1next.x then
        -- The P line of support is vertical
        { st3 with vertical := true, slope := 0 }
      else if st3.p1.x > st3.p1next.x then
        { st3 with vertical := false,
                   slope := (st3.p1.y - st3.p1next.y) / (st3.p1.x - st3.p1next.x) }
      else
        { st3 with vertical := false,
                   slope := (st3.p1next.y - st3.p1.y) / (st3.p1next.x - st3.p1.x) }
    else if st3.iq2 then
      if st3.q2.x = st3.q2next.x then
        -- The Q line of support is vertical
        { st3 with vertical := true, slope := 0 }
      else if st3.q2.x > st3.q2next.x then
        { st3 with vertical := false,
                   slope := (st3.q2.y - st3.q2next.y) / (st3.q2.x - st3.q2next.x) }
      else
        { st3 with vertical := false,
                   slope := (st3.q2next.y - st3.q2.y) / (st3.q2next.x - st3.q2.x) }
    else st3
  { st4 with start := some false, p1 := st4.p1next, q2 := st4.q2next }

/-- The new value of `state.dist` produced by one `computemin` call
(source lines 500-643); `computemin` writes no other field.  The
`unreachable!()` arm is reached exactly when `alignment` is `none`; the
value after the always-performed first update is returned there, and its
unreachability after `nextpoints` is proved separately. -/
def computeminDist (st : Polydist) : EReal :=
  let d0 := updMin (euclidean_distance st.p1 st.q2) st.dist
  match st.alignment with
  | some AlignedEdge.VertexP =>
      -- one line of support coincides with a vertex on Q, the other with an edge on P
      let u :=
        if ¬st.vertical then
          if st.slope ≠ 0 then unitvector (-1 / st.slope) st.poly2 st.q2 st.q2_idx
          else ⟨st.q2.x, st.q2.y + 100⟩
        else unitvector 0 st.poly2 st.q2 st.q2_idx
      let line_1 := orient2d u st.q2 st.p1
      let line_2 := orient2d u st.q2 st.p1prev
      if line_1 ≠ line_2 ∧ line_1 ≠ Orientation.Collinear ∧ line_2 ≠ Orientation.Collinear then
        -- an orthogonal intersection exists
        updMin (vertex_line_distance st.q2 st.p1prev st.p1) d0
      else d0
  | some AlignedEdge.VertexQ =>
      -- one line of support coincides with a vertex on P, the other with an edge on Q
      let u :=
        if ¬st.vertical then
          if st.slope ≠ 0 then unitvector (-1 / st.slope) st.poly1 st.p1 st.p1_idx
          else ⟨st.p1.x, st.p1.y + 100⟩
        else unitvector 0 st.poly1 st.p1 st.p1_idx
      let line_1 := orient2d u st.p1 st.q2
      let line_2 := orient2d u st.p1 st.q2prev
      if line_1 ≠ line_2 ∧ line_1 ≠ Orientation.Collinear ∧ line_2 ≠ Orientation.Collinear then
        -- an orthogonal intersection exists
        updMin (vertex_line_distance st.p1 st.q2prev st.q2) d0
      else d0
  | some AlignedEdge.Edge =>
      -- both lines of support coincide with edges (i.e. they are parallel)
      let d1 := updMin (euclidean_distance st.p1 st.q2) d0
      let d2 := updMin (euclidean_distance st.p1 st.q2prev) d1
      let d3 := updMin (euclidean_distance st.p1prev st.q2) d2
      let u1 :=
        if ¬st.vertical then
          if st.slope ≠ 0 then unitvector (-1 / st.slope) st.poly1 st.p1prev st.p1_idx
          else ⟨st.p1prev.x, st.p1prev.y + 100⟩
        else unitvector 0 st.poly1 st.p1prev st.p1_idx
      let u2 :=
        if ¬st.vertical then
          if st.slope ≠ 0 then unitvector (-1 / st.slope) st.poly1 st.p1 st.p1_idx
          else ⟨st.p1.x, st.p1.y + 100⟩
        else unitvector 0 st.poly1 st.p1 st.p1_idx
      let line_1a := orient2d u1 st.p1prev st.q2prev
      let line_1b := orient2d u1 st.p1prev st.q2
      let line_2a := orient2d u2 st.p1 st.q2prev
      let line_2b := orient2d u2 st.p1 st.q2
      if (line_1a ≠ line_1b ∧ line_1a ≠ Orientation.Collinear ∧ line_1b ≠ Orientation.Collinear)
          ∨ (line_2a ≠ line_2b ∧ line_2a ≠ Orientation.Collinear ∧ line_2b ≠ Orientation.Collinear) then
        -- an orthogonal intersection exists
        updMin (vertex_line_distance st.p1 st.q2prev st.q2) d3
      else d3
  | none => d0

/-- Source `computemin`: compute the minimum distance between entities
(edges or vertices); only the `dist` field changes. -/
def computemin (st : Polydist) : Polydist :=
  { st with dist := computeminDist st }

/-- The `unreachable!()` arm of `computemin` fires exactly when the
alignment is `none` at evaluation time. -/
def computeminHitsUnreachable (st : Polydist) : Prop :=
  st.alignment = none

/-- Modelled from the spec: the extreme-point query (external collaborator
`extremes()`): index of the vertex with minimal y, first occurrence kept. -/
def argminY : List Pt → Nat → Nat → Pt → Nat
  | [], _, besti, _ => besti
  | c :: rest, i, besti, bestc =>
      if c.y < bestc.y then argminY rest (i + 1) i c
      else argminY rest (i + 1) besti bestc

/-- Modelled from the spec: index of the ring vertex with minimal y. -/
def yMinIndex (ring : List Pt) : Nat :=
  match ring with
  | [] => 0
  | c :: rest => argminY rest 1 0 c

/-- Modelled from the spec: the extreme-point query, maximal-y direction. -/
def argmaxY : List Pt → Nat → Nat → Pt → Nat
  | [], _, besti, _ => besti
  | c :: rest, i, besti, bestc =>
      if c.y > bestc.y then argmaxY rest (i + 1) i c
      else argmaxY rest (i + 1) besti bestc

/-- Modelled from the spec: index of the ring vertex with maximal y. -/
def yMaxIndex (ring : List Pt) : Nat :=
  match ring with
  | [] => 0
  | c :: rest => argmaxY rest 1 0 c

/-- The initial caliper state built by `min_convex_poly_dist`
(source lines 20-52). -/
def initState (poly1 poly2 : Polygon) : Polydist :=
  { poly1 := poly1
    poly2 := poly2
    dist := ⊤
    p1_idx := yMinIndex poly1.exterior
    q2_idx := yMaxIndex poly2.exterior
    p1 := vtx poly1 (yMinIndex poly1.exterior)
    q2 := vtx poly2 (yMaxIndex poly2.exterior)
    p1next := ⟨0, 0⟩
    q2next := ⟨0, 0⟩
    p1prev := ⟨0, 0⟩
    q2prev := ⟨0, 0⟩
    alignment := none
    ap1 := 0
    aq2 := 0
    start := none
    ip1 := false
    iq2 := false
    slope := 0
    vertical := false
    angle := 0
    max_iterations := poly1.exterior.length + poly2.exterior.length }

/-- The driver loop body iterated a fixed number of times: the source
`while iterations <= state.max_iterations` with `iterations` starting at 0
executes `nextpoints` then `computemin` exactly `max_iterations + 1` times
(the body never changes `max_iterations`). -/
def runLoop : Polydist → Nat → Polydist
  | st, 0 => st
  | st, n + 1 => runLoop (computemin (nextpoints st)) n

/-- The iteration counter of the driver loop, mirroring `runLoop`. -/
def runLoopCount : Polydist → Nat → Nat
  | _, 0 => 0
  | st, n + 1 => runLoopCount (computemin (nextpoints st)) n + 1

/-- Source `min_convex_poly_dist` (lines 16-60): minimum distance between
two disjoint and linearly separable convex polygons by rotating calipers. -/
def min_convex_poly_dist (poly1 poly2 : Polygon) : EReal :=
  (runLoop (initState poly1 poly2) ((initState poly1 poly2).max_iterations + 1)).dist

/-- The number of rotation steps (one `nextpoints` plus one `computemin`)
performed by `min_convex_poly_dist` on the given polygons. -/
def rotationSteps (poly1 poly2 : Polygon) : Nat :=
  runLoopCount (initState poly1 poly2) ((initState poly1 poly2).max_iterations + 1)

/-! Concrete inputs used by counterexamples and witnesses. -/

/-- A closed unit square at the origin (5 ring points, 4 vertices). -/
def sqA : Polygon :=
  ⟨[⟨0, 0⟩, ⟨1, 0⟩, ⟨1, 1⟩, ⟨0, 1⟩, ⟨0, 0⟩]⟩

/-- A closed unit square translated to x = 10 (5 ring points, 4 vertices). -/
def sqB : Polygon :=
  ⟨[⟨10, 0⟩, ⟨11, 0⟩, ⟨11, 1⟩, ⟨10, 1⟩, ⟨10, 0⟩]⟩

/-- A closed convex triangle with ring (-1,0), (0,0), (3,-4). -/
def triC : Polygon :=
  ⟨[⟨-1, 0⟩, ⟨0, 0⟩, ⟨3, -4⟩, ⟨-1, 0⟩]⟩

/-- A caliper state over `sqA`/`sqB` in which the support lines are
vertical, polygon 1 sits at its vertex 0 (successor edge horizontal, so its
angle to the next feature is pi/2) and polygon 2 sits at its vertex 1
(successor edge vertical, so its angle is 0): only the polygon-2 caliper
advances in the next transition. -/
def c2State : Polydist :=
  { poly1 := sqA
    poly2 := sqB
    dist := ⊤
    p1_idx := 0
    q2_idx := 1
    p1 := ⟨0, 0⟩
    q2 := ⟨11, 0⟩
    p1next := ⟨0, 0⟩
    q2next := ⟨0, 0⟩
    p1prev := ⟨0, 0⟩
    q2prev := ⟨0, 0⟩
    alignment := none
    ap1 := 0
    aq2 := 0
    start := none
    ip1 := false
    iq2 := false
    slope := 0
    vertical := true
    angle := 0
    max_iterations := 10 }

/-- A caliper state in Edge alignment whose previous-previous vertex pair
(p1prev, q2prev) = ((0,0), (0,1)) is at distance 1, strictly closer than
every candidate `computemin` evaluates in its Edge branch. -/
def edgeState : Polydist :=
  { poly1 := sqA
    poly2 := sqB
    dist := ⊤
    p1_idx := 0
    q2_idx := 0
    p1 := ⟨5, 0⟩
    q2 := ⟨5, 9⟩
    p1next := ⟨0, 0⟩
    q2next := ⟨0, 0⟩
    p1prev := ⟨0, 0⟩
    q2prev := ⟨0, 1⟩
    alignment := some AlignedEdge.Edge
    ap1 := 0
    aq2 := 0
    start := some false
    ip1 := true
    iq2 := true
    slope := 0
    vertical := false
    angle := 0
    max_iterations := 10 }

/-! Helper lemmas about the distance updates and the loop. -/

theorem updMin_le (newdist : ℝ) (d : EReal) : updMin newdist d ≤ d := by
  unfold updMin
  split_ifs with h
  · exact h
  · exact le_refl d

theorem updMin_le_coe (newdist : ℝ) (d : EReal) : updMin newdist d ≤ (newdist : EReal) := by
  unfold updMin
  split_ifs with h
  · exact le_refl _
  · exact le_of_not_le h

theorem updMin_nonneg {newdist : ℝ} {d : EReal} (h1 : 0 ≤ newdist) (h2 : 0 ≤ d) :
    0 ≤ updMin newdist d := by
  unfold updMin
  split_ifs with h
  · exact_mod_cast h1
  · exact h2

theorem euclidean_distance_nonneg (p q : Pt) : 0 ≤ euclidean_distance p q :=
  Real.sqrt_nonneg _

theorem vertex_line_distance_nonneg (v p q : Pt) : 0 ≤ vertex_line_distance v p q := by
  unfold vertex_line_distance segDistance
  dsimp only
  split_ifs with h
  · exact euclidean_distance_nonneg _ _
  · exact euclidean_distance_nonneg _ _

theorem updMin_le_trans {d e : EReal} (newdist : ℝ) (h : d ≤ e) : updMin newdist d ≤ e :=
  le_trans (updMin_le newdist d) h

theorem computeminDist_le_dist (st : Polydist) : computeminDist st ≤ st.dist := by
  unfold computeminDist
  rcases h : st.alignment with _ | al
  · simp only [h]
    exact updMin_le _ _
  · rcases al with _ | _ | _ <;> simp only [h] <;> split_ifs <;>
      first
        | exact updMin_le _ _
        | exact updMin_le_trans _ (updMin_le _ _)
        | exact updMin_le_trans _ (updMin_le_trans _ (updMin_le _ _))
        | exact updMin_le_trans _ (updMin_le_trans _ (updMin_le_trans _ (updMin_le _ _)))
        | exact updMin_le_trans _
            (updMin_le_trans _ (updMin_le_trans _ (updMin_le_trans _ (updMin_le _ _))))

theorem computeminDist_le_first (st : Polydist) :
    computeminDist st ≤ (euclidean_distance st.p1 st.q2 : EReal) := by
  refine le_trans ?_ (updMin_le_coe (euclidean_distance st.p1 st.q2) st.dist)
  unfold computeminDist
  rcases h : st.alignment with _ | al
  · simp only [h]
    exact le_refl _
  · rcases al with _ | _ | _ <;> simp only [h] <;> split_ifs <;>
      first
        | exact le_refl _
        | exact updMin_le _ _
        | exact updMin_le_trans _ (updMin_le _ _)
        | exact updMin_le_trans _ (updMin_le_trans _ (updMin_le _ _))
        | exact updMin_le_trans _ (updMin_le_trans _ (updMin_le_trans _ (updMin_le _ _)))

theorem computeminDist_nonneg (st : Polydist) (h : 0 ≤ st.dist) : 0 ≤ computeminDist st := by
  have h0 : 0 ≤ updMin (euclidean_distance st.p1 st.q2) st.dist :=
    updMin_nonneg (euclidean_distance_nonneg _ _) h
  unfold computeminDist
  rcases ha : st.alignment with _ | al
  · simpa only [ha] using h0
  · rcases al with _ | _ | _ <;> simp only [ha] <;> split_ifs <;>
      first
        | exact h0
        | exact updMin_nonneg (vertex_line_distance_nonneg _ _ _) h0
        | exact updMin_nonneg (euclidean_distance_nonneg _ _)
            (updMin_nonneg (euclidean_distance_nonneg _ _)
              (updMin_nonneg (euclidean_distance_nonneg _ _) h0))
        | exact updMin_nonneg (vertex_line_distance_nonneg _ _ _)
            (updMin_nonneg (euclidean_distance_nonneg _ _)
              (updMin_nonneg (euclidean_distance_nonneg _ _)
                (updMin_nonneg (euclidean_distance_nonneg _ _) h0)))

theorem nextpoints_dist (st : Polydist) : (nextpoints st).dist = st.dist := by
  unfold nextpoints
  dsimp only
  split_ifs <;> rfl

theorem runLoop_dist_le (n : Nat) : ∀ st : Polydist, (runLoop st n).dist ≤ st.dist := by
  induction n with
  | zero => intro st; exact le_refl _
  | succ n ih =>
      intro st
      refine le_trans (ih (computemin (nextpoints st))) ?_
      show computeminDist (nextpoints st) ≤ st.dist
      calc computeminDist (nextpoints st) ≤ (nextpoints st).dist :=
            computeminDist_le_dist _
        _ = st.dist := nextpoints_dist st

theorem runLoop_dist_nonneg (n : Nat) :
    ∀ st : Polydist, 0 ≤ st.dist → 0 ≤ (runLoop st n).dist := by
  induction n with
  | zero => intro st h; exact h
  | succ n ih =>
      intro st h
      refine ih (computemin (nextpoints st)) ?_
      show 0 ≤ computeminDist (nextpoints st)
      exact computeminDist_nonneg _ (by rw [nextpoints_dist]; exact h)

theorem runLoopCount_eq (n : Nat) : ∀ st : Polydist, runLoopCount st n = n := by
  induction n with
  | zero => intro st; rfl
  | succ n ih =>
      intro st
      show runLoopCount (computemin (nextpoints st)) n + 1 = n + 1
      rw [ih]

theorem sqrt_eval {a b : ℝ} (h : 0 ≤ b) (hb : a = b ^ 2) : Real.sqrt a = b := by
  rw [hb]
  exact Real.sqrt_sq h

theorem updMin_top (newdist : ℝ) : updMin newdist ⊤ = (newdist : EReal) := by
  unfold updMin
  rw [if_pos le_top]

theorem updMin_coe_of_le {a b : ℝ} (h : a ≤ b) : updMin a (b : EReal) = (a : EReal) := by
  unfold updMin
  rw [if_pos (EReal.coe_le_coe_iff.mpr h)]

theorem updMin_coe_of_gt {a b : ℝ} (h : b < a) : updMin a (b : EReal) = (b : EReal) := by
  unfold updMin
  rw [if_neg fun hc => absurd (EReal.coe_le_coe_iff.mp hc) (not_le.mpr h)]

/-! Claim theorems. -/

/-- C7: the `dist` field of the caliper state is initialized to
plus-infinity, and every rotation step (one `nextpoints` call followed by
one `computemin` call) leaves `dist` less than or equal to its value before
the step. -/
theorem dist_init_top_and_nonincreasing (poly1 poly2 : Polygon) (st : Polydist) :
    (initState poly1 poly2).dist = ⊤ ∧ (computemin (nextpoints st)).dist ≤ st.dist := by
  refine ⟨rfl, ?_⟩
  show computeminDist (nextpoints st) ≤ st.dist
  calc computeminDist (nextpoints st) ≤ (nextpoints st).dist := computeminDist_le_dist _
    _ = st.dist := nextpoints_dist st

/-- C8: after every call to `nextpoints` the `alignment` field holds some
value (never `none`), so the `unreachable` arm of the match in `computemin`
is never executed when `computemin` runs after `nextpoints`, for any input
state. -/
theorem nextpoints_alignment_some (st : Polydist) :
    ¬computeminHitsUnreachable (nextpoints st) := by
  unfold computeminHitsUnreachable nextpoints
  dsimp only
  split_ifs <;> simp

/-- C4 counterexample: on two unit squares (closed rings of 5 points each)
the driver performs 11 rotation steps, not the 10 the claim states. -/
theorem rotation_steps_counterexample :
    rotationSteps sqA sqB ≠ sqA.exterior.length + sqB.exterior.length := by
  unfold rotationSteps
  rw [runLoopCount_eq]
  simp [initState, sqA, sqB]

/-- C4 amended: for every pair of input polygons, `min_convex_poly_dist`
performs exactly `|poly1.exterior| + |poly2.exterior| + 1` rotation steps
(one `nextpoints` followed by one `computemin` per step) and terminates:
the source loop runs for `iterations = 0, ..., max_iterations` inclusive. -/
theorem rotation_steps_exact (poly1 poly2 : Polygon) :
    rotationSteps poly1 poly2 = poly1.exterior.length + poly2.exterior.length + 1 := by
  unfold rotationSteps
  rw [runLoopCount_eq]
  rfl

/-- C5 counterexample: the sine ratio -2 lies below -1, yet the value the
clamp of `vertex_line_angle` actually uses is 1, not the nearest endpoint
-1. -/
theorem clamp_sine_counterexample :
    ((-2 : ℝ) < -1) ∧ clampSine (-2) = 1 ∧ clampSine (-2) ≠ -1 := by
  refine ⟨by norm_num, ?_, ?_⟩ <;> unfold clampSine <;> norm_num

/-- C5 amended: whenever the computed sine ratio lies outside the closed
interval from -1 to 1, the value actually used by `vertex_line_angle` is 1,
in both overflow directions (a ratio below -1 also becomes 1). -/
theorem clamp_sine_out_of_range_one (s : ℝ) (h : s < -1 ∨ 1 < s) : clampSine s = 1 := by
  unfold clampSine
  rw [if_pos h]

/-- Witness for the amended C5 theorem at the concrete ratio -2. -/
theorem clamp_sine_out_of_range_one_witness :
    ((-2 : ℝ) < -1 ∨ 1 < (-2 : ℝ)) ∧ clampSine (-2) = 1 :=
  ⟨Or.inl (by norm_num), clamp_sine_out_of_range_one (-2) (Or.inl (by norm_num))⟩

/-- C10: for every pair of input polygons with at least 3 ring vertices,
the value returned by `min_convex_poly_dist` is non-negative and strictly
below plus-infinity: the first `computemin` always records the finite
p1-to-q2 vertex distance, replacing the initial infinity. -/
theorem min_dist_nonneg_finite (poly1 poly2 : Polygon)
    (h1 : 3 ≤ poly1.exterior.length) (h2 : 3 ≤ poly2.exterior.length) :
    0 ≤ min_convex_poly_dist poly1 poly2 ∧ min_convex_poly_dist poly1 poly2 < ⊤ := by
  unfold min_convex_poly_dist
  have hstep :
      runLoop (initState poly1 poly2) ((initState poly1 poly2).max_iterations + 1) =
        runLoop (computemin (nextpoints (initState poly1 poly2)))
          (initState poly1 poly2).max_iterations := rfl
  rw [hstep]
  constructor
  · apply runLoop_dist_nonneg
    show 0 ≤ computeminDist (nextpoints (initState poly1 poly2))
    apply computeminDist_nonneg
    rw [nextpoints_dist]
    exact le_top
  · have hle := runLoop_dist_le (initState poly1 poly2).max_iterations
      (computemin (nextpoints (initState poly1 poly2)))
    refine lt_of_le_of_lt hle ?_
    show computeminDist (nextpoints (initState poly1 poly2)) < ⊤
    exact lt_of_le_of_lt (computeminDist_le_first _) (EReal.coe_lt_top _)

/-- Witness for C10 at the two concrete unit squares. -/
theorem min_dist_nonneg_finite_witness :
    (3 ≤ sqA.exterior.length ∧ 3 ≤ sqB.exterior.length) ∧
      (0 ≤ min_convex_poly_dist sqA sqB ∧ min_convex_poly_dist sqA sqB < ⊤) :=
  ⟨⟨by decide, by decide⟩, min_dist_nonneg_finite sqA sqB (by decide) (by decide)⟩

/-- C3 amended: in the Edge alignment case, `computemin` evaluates the
three vertex-pair distances (p1,q2), (p1,q2prev), (p1prev,q2) as candidate
minima — the pair (p1prev,q2prev) is not evaluated — so the resulting
`dist` is bounded by the previous `dist` and by each of those three
candidates. -/
theorem computemin_edge_three_candidates (st : Polydist)
    (h : st.alignment = some AlignedEdge.Edge) :
    (computemin st).dist ≤ st.dist ∧
      (computemin st).dist ≤ (euclidean_distance st.p1 st.q2 : EReal) ∧
      (computemin st).dist ≤ (euclidean_distance st.p1 st.q2prev : EReal) ∧
      (computemin st).dist ≤ (euclidean_distance st.p1prev st.q2 : EReal) := by
  show computeminDist st ≤ _ ∧ computeminDist st ≤ _ ∧
    computeminDist st ≤ _ ∧ computeminDist st ≤ _
  unfold computeminDist
  simp only [h]
  split_ifs <;>
    first
      | exact ⟨updMin_le_trans _ (updMin_le_trans _ (updMin_le_trans _
            (updMin_le_trans _ (updMin_le _ _)))),
          updMin_le_trans _ (updMin_le_trans _ (updMin_le_trans _ (updMin_le_coe _ _))),
          updMin_le_trans _ (updMin_le_trans _ (updMin_le_coe _ _)),
          updMin_le_trans _ (updMin_le_coe _ _)⟩
      | exact ⟨updMin_le_trans _ (updMin_le_trans _ (updMin_le_trans _ (updMin_le _ _))),
          updMin_le_trans _ (updMin_le_trans _ (updMin_le_coe _ _)),
          updMin_le_trans _ (updMin_le_coe _ _),
          updMin_le_coe _ _⟩

theorem vla_sqA_eval : vertex_line_angle sqA ⟨0, 0⟩ 0 true 0 = Real.pi / 2 := by
  have hprev : vtx sqA (prev_vertex sqA 0) = (⟨0, 1⟩ : Pt) := rfl
  have hnext : vtx sqA (next_vertex sqA 0) = (⟨1, 0⟩ : Pt) := rfl
  have hcw : clockwise ⟨0, 1⟩ ⟨0, 0⟩ ⟨1, 0⟩ = false := by
    unfold clockwise orient2d
    norm_num
    decide
  have hpu : punitFor sqA ⟨0, 0⟩ 0 true 0 = (⟨0, -100⟩ : Pt) := by
    simp only [punitFor, hprev, hnext, hcw]
    norm_num
  have hup : unitpvector ⟨0, 0⟩ ⟨0, -100⟩ = (⟨-100, 0⟩ : Pt) := by
    unfold unitpvector
    norm_num
  have ho : orient2d ⟨0, 0⟩ ⟨-100, 0⟩ ⟨1, 0⟩ = Orientation.Collinear := by
    unfold orient2d
    norm_num
  simp only [vertex_line_angle, hprev, hnext, hcw, hpu, hup, ho]
  norm_num

theorem vla_sqB_eval : vertex_line_angle sqB ⟨11, 0⟩ 0 true 1 = 0 := by
  have hprev : vtx sqB (prev_vertex sqB 1) = (⟨10, 0⟩ : Pt) := rfl
  have hnext : vtx sqB (next_vertex sqB 1) = (⟨11, 1⟩ : Pt) := rfl
  have hcw : clockwise ⟨10, 0⟩ ⟨11, 0⟩ ⟨11, 1⟩ = false := by
    unfold clockwise orient2d
    norm_num
    decide
  have hpu : punitFor sqB ⟨11, 0⟩ 0 true 1 = (⟨11, 100⟩ : Pt) := by
    simp only [punitFor, hprev, hnext, hcw]
    norm_num
  have hup : unitpvector ⟨11, 0⟩ ⟨11, 100⟩ = (⟨111, 0⟩ : Pt) := by
    unfold unitpvector
    norm_num
  have ho : orient2d ⟨11, 0⟩ ⟨111, 0⟩ ⟨11, 1⟩ = Orientation.CounterClockwise := by
    unfold orient2d
    norm_num
  have hsa : signedArea ⟨11, 0⟩ ⟨11, 100⟩ ⟨11, 1⟩ = 0 := by
    unfold signedArea
    norm_num
  have hel : euclidean_distance ⟨11, 0⟩ ⟨11, 1⟩ = 1 := by
    unfold euclidean_distance
    norm_num
  have d1 : ¬(Orientation.CounterClockwise = Orientation.Collinear) := by decide
  have d2 : ¬(Orientation.CounterClockwise = Orientation.Clockwise) := by decide
  simp only [vertex_line_angle, hprev, hnext, hcw, hpu, hup, ho, hsa, hel]
  norm_num [clampSine, Real.arcsin_zero]
  rw [if_neg d1, if_neg d2]

/-- C2: in the `nextpoints` transition from the concrete state `c2State`,
only the polygon-2 angle is within epsilon of the minimum (polygon 1 does
not advance, polygon 2 does), yet the resulting alignment is `Edge`, not
`VertexQ`: the initial `alignment = Some(VertexP)` assignment makes the
`None => VertexQ` match arm dead, contradicting the transition documented
in the source comment. -/
theorem nextpoints_only_q_advance_gives_edge :
    ((nextpoints c2State).ip1 = false ∧ (nextpoints c2State).iq2 = true) ∧
      (nextpoints c2State).alignment = some AlignedEdge.Edge := by
  have hpi2 : (1 : ℝ) < Real.pi / 2 := by
    have := Real.pi_gt_three
    linarith
  have hmin : min (Real.pi / 2) (0 : ℝ) = 0 :=
    min_eq_right (by positivity)
  have hc1 : ¬(|Real.pi / 2| < eps) := by
    rw [abs_of_pos (by positivity), not_lt]
    calc eps ≤ 1 := by norm_num [eps]
      _ ≤ Real.pi / 2 := le_of_lt hpi2
  have hc2 : (0 : ℝ) < eps := by
    norm_num [eps]
  have hq2n : vtx sqB (next_vertex sqB 1) = (⟨11, 1⟩ : Pt) := rfl
  simp [nextpoints, c2State, vla_sqA_eval, vla_sqB_eval, hmin, hc1, hc2, hq2n]

/-- C6 counterexample: at vertex (0,0) of the convex triangle `triC`, with
a vertical caliper, `vertex_line_angle` evaluates to the arcsine of -3/5
and is strictly negative, so its value does not lie in the claimed interval
from 0 to pi. -/
theorem vertex_line_angle_negative_counterexample :
    vertex_line_angle triC ⟨0, 0⟩ 0 true 1 < 0 := by
  have hprev : vtx triC (prev_vertex triC 1) = (⟨-1, 0⟩ : Pt) := rfl
  have hnext : vtx triC (next_vertex triC 1) = (⟨3, -4⟩ : Pt) := rfl
  have hcw : clockwise ⟨-1, 0⟩ ⟨0, 0⟩ ⟨3, -4⟩ = true := by
    unfold clockwise orient2d
    norm_num
  have hpu : punitFor triC ⟨0, 0⟩ 0 true 1 = (⟨0, -100⟩ : Pt) := by
    simp only [punitFor, hprev, hnext, hcw]
    norm_num
  have hup : unitpvector ⟨0, 0⟩ ⟨0, -100⟩ = (⟨-100, 0⟩ : Pt) := by
    unfold unitpvector
    norm_num
  have ho : orient2d ⟨0, 0⟩ ⟨-100, 0⟩ ⟨3, -4⟩ = Orientation.CounterClockwise := by
    unfold orient2d
    norm_num
  have hsa : signedArea ⟨0, 0⟩ ⟨0, -100⟩ ⟨3, -4⟩ = 150 := by
    unfold signedArea
    norm_num
  have hel : euclidean_distance ⟨0, 0⟩ ⟨3, -4⟩ = 5 := by
    unfold euclidean_distance
    norm_num
    exact sqrt_eval (by norm_num) (by norm_num)
  have hcl : clampSine (150 / (1 / 2 * 100 * 5)) = 3 / 5 := by
    unfold clampSine
    norm_num
  have d1 : ¬(Orientation.CounterClockwise = Orientation.Collinear) := by decide
  have d2 : ¬(Orientation.CounterClockwise = Orientation.Clockwise) := by decide
  simp only [vertex_line_angle, hprev, hnext, hcw, hpu, hup, ho, hsa, hel, hcl,
    if_true, if_neg d1, if_neg d2]
  norm_num [Real.arcsin_neg]
  rw [if_neg d2, neg_lt_zero]
  apply Real.arcsin_pos.mpr
  norm_num

theorem vertex_line_angle_eq_parts (poly : Polygon) (p : Pt) (m : ℝ) (vertical : Bool)
    (idx : Nat) :
    vertex_line_angle poly p m vertical idx =
      angleFromParts (clockwise (vtx poly (prev_vertex poly idx)) p (vtx poly (next_vertex poly idx)))
        (caliperLeft poly p m vertical idx) (caliperSine poly p m vertical idx) := rfl

theorem angleFromParts_range (cw : Bool) (left : Orientation) (sine : ℝ) :
    -(Real.pi / 2) ≤ angleFromParts cw left sine ∧
      angleFromParts cw left sine ≤ 3 * Real.pi / 2 := by
  have harc1 : ∀ s : ℝ, -(Real.pi / 2) ≤ Real.arcsin s := fun s =>
    Real.neg_pi_div_two_le_arcsin s
  have hpi : 0 < Real.pi := Real.pi_pos
  have L1 : ∀ s : ℝ, -(Real.pi / 2) ≤ Real.pi - Real.arcsin s := fun s => by
    have := Real.arcsin_le_pi_div_two s
    linarith
  have L2 : ∀ s : ℝ, Real.pi - Real.arcsin s ≤ 3 * Real.pi / 2 := fun s => by
    have := Real.neg_pi_div_two_le_arcsin s
    linarith
  have L3 : ∀ s : ℝ, Real.arcsin s ≤ 3 * Real.pi / 2 := fun s => by
    have := Real.arcsin_le_pi_div_two s
    linarith
  have L4 : -(Real.pi / 2) ≤ Real.pi / 2 := by linarith
  have L5 : Real.pi / 2 ≤ 3 * Real.pi / 2 := by linarith
  unfold angleFromParts
  split_ifs <;>
    refine ⟨?_, ?_⟩ <;>
      first
        | exact harc1 _
        | exact L1 _
        | exact L2 _
        | exact L3 _
        | exact L4
        | exact L5

theorem angleFromParts_cases (cw : Bool) (left : Orientation) (sine : ℝ) :
    (left = Orientation.Collinear → angleFromParts cw left sine = Real.pi / 2) ∧
      (left = Orientation.Clockwise →
        angleFromParts cw left sine = Real.pi - Real.arcsin (if cw then -sine else sine)) ∧
      (left ≠ Orientation.Collinear → left ≠ Orientation.Clockwise →
        angleFromParts cw left sine = Real.arcsin (if cw then -sine else sine)) := by
  rcases cw with _ | _ <;> rcases left with _ | _ | _ <;>
    refine ⟨fun h => ?_, fun h => ?_, fun h1 h2 => ?_⟩ <;>
      simp_all [angleFromParts]

/-- C6 amended: for every polygon with at least 3 ring vertices, every
vertex of it and every slope/verticality input, `vertex_line_angle` lies in
the closed interval from minus pi/2 to 3 pi/2 (the acute arcsine branch can
be negative, so the claimed lower bound 0 fails); it returns exactly pi/2
when the orientation test of the successor against the perpendicular unit
vector is Collinear, the obtuse value pi minus arcsin s when that
orientation is Clockwise, and the value arcsin s otherwise, where s is the
clamped sine ratio negated when the local winding is clockwise. -/
theorem vertex_line_angle_range (poly : Polygon) (p : Pt) (m : ℝ) (vertical : Bool) (idx : Nat)
    (hring : 3 ≤ poly.exterior.length) :
    (-(Real.pi / 2) ≤ vertex_line_angle poly p m vertical idx ∧
      vertex_line_angle poly p m vertical idx ≤ 3 * Real.pi / 2) ∧
    (caliperLeft poly p m vertical idx = Orientation.Collinear →
      vertex_line_angle poly p m vertical idx = Real.pi / 2) ∧
    (caliperLeft poly p m vertical idx = Orientation.Clockwise →
      vertex_line_angle poly p m vertical idx =
        Real.pi - Real.arcsin
          (if clockwise (vtx poly (prev_vertex poly idx)) p (vtx poly (next_vertex poly idx))
            then -(caliperSine poly p m vertical idx) else caliperSine poly p m vertical idx)) ∧
    (caliperLeft poly p m vertical idx ≠ Orientation.Collinear →
      caliperLeft poly p m vertical idx ≠ Orientation.Clockwise →
      vertex_line_angle poly p m vertical idx =
        Real.arcsin
          (if clockwise (vtx poly (prev_vertex poly idx)) p (vtx poly (next_vertex poly idx))
            then -(caliperSine poly p m vertical idx) else caliperSine poly p m vertical idx)) := by
  rw [vertex_line_angle_eq_parts]
  exact ⟨angleFromParts_range _ _ _, (angleFromParts_cases _ _ _).1,
    (angleFromParts_cases _ _ _).2.1, (angleFromParts_cases _ _ _).2.2⟩

/-- Witness for the amended C6 theorem: the unit square has 5 ring points,
and at its vertex 0 with a vertical caliper the orientation test is
Collinear, so the returned angle is exactly pi/2. -/
theorem vertex_line_angle_range_witness :
    (3 ≤ sqA.exterior.length ∧
      caliperLeft sqA ⟨0, 0⟩ 0 true 0 = Orientation.Collinear) ∧
      vertex_line_angle sqA ⟨0, 0⟩ 0 true 0 = Real.pi / 2 := by
  have hprev : vtx sqA (prev_vertex sqA 0) = (⟨0, 1⟩ : Pt) := rfl
  have hnext : vtx sqA (next_vertex sqA 0) = (⟨1, 0⟩ : Pt) := rfl
  have hcw : clockwise ⟨0, 1⟩ ⟨0, 0⟩ ⟨1, 0⟩ = false := by
    unfold clockwise orient2d
    norm_num
    decide
  have hpu : punitFor sqA ⟨0, 0⟩ 0 true 0 = (⟨0, -100⟩ : Pt) := by
    simp only [punitFor, hprev, hnext, hcw]
    norm_num
  have hup : unitpvector ⟨0, 0⟩ ⟨0, -100⟩ = (⟨-100, 0⟩ : Pt) := by
    unfold unitpvector
    norm_num
  have hcol : caliperLeft sqA ⟨0, 0⟩ 0 true 0 = Orientation.Collinear := by
    unfold caliperLeft
    rw [hpu, hup, hnext]
    unfold orient2d
    norm_num
  exact ⟨⟨by decide, hcol⟩,
    (vertex_line_angle_range sqA ⟨0, 0⟩ 0 true 0 (by decide)).2.1 hcol⟩

theorem computeminDist_edgeState : computeminDist edgeState = ((Real.sqrt 26 : ℝ) : EReal) := by
  have h81 : Real.sqrt 81 = 9 := sqrt_eval (by norm_num) (by norm_num)
  have hle : Real.sqrt 26 ≤ 9 := by
    calc Real.sqrt 26 ≤ Real.sqrt 81 := Real.sqrt_le_sqrt (by norm_num)
      _ = 9 := h81
  have hgt : Real.sqrt 26 < Real.sqrt 106 := Real.sqrt_lt_sqrt (by norm_num) (by norm_num)
  unfold computeminDist
  dsimp only [edgeState]
  norm_num [euclidean_distance, orient2d]
  rw [h81]
  rw [updMin_top, updMin_coe_of_le (le_refl (9 : ℝ)), updMin_coe_of_le hle,
    updMin_coe_of_gt hgt]

/-- C3 counterexample: in the concrete Edge-aligned state, the vertex pair
(p1prev, q2prev) is at distance 1, strictly below every candidate the Edge
branch evaluates, yet `computemin` leaves `dist` at the square root of 26:
the fourth vertex pair of the claim is never evaluated. -/
theorem computemin_edge_misses_prev_prev :
    edgeState.alignment = some AlignedEdge.Edge ∧
      (euclidean_distance edgeState.p1prev edgeState.q2prev : EReal) < (computemin edgeState).dist := by
  refine ⟨rfl, ?_⟩
  show _ < computeminDist edgeState
  rw [computeminDist_edgeState]
  have h1 : euclidean_distance edgeState.p1prev edgeState.q2prev = 1 := by
    unfold euclidean_distance
    dsimp only [edgeState]
    norm_num
  rw [h1]
  have h2 : (1 : ℝ) < Real.sqrt 26 := by
    calc (1 : ℝ) = Real.sqrt 1 := Real.sqrt_one.symm
      _ < Real.sqrt 26 := Real.sqrt_lt_sqrt (by norm_num) (by norm_num)
  exact_mod_cast h2

/-- Witness for the amended C3 theorem at the concrete Edge-aligned
state. -/
theorem computemin_edge_three_candidates_witness :
    edgeState.alignment = some AlignedEdge.Edge ∧
      ((computemin edgeState).dist ≤ edgeState.dist ∧
        (computemin edgeState).dist ≤ (euclidean_distance edgeState.p1 edgeState.q2 : EReal) ∧
        (computemin edgeState).dist ≤ (euclidean_distance edgeState.p1 edgeState.q2prev : EReal) ∧
        (computemin edgeState).dist ≤ (euclidean_distance edgeState.p1prev edgeState.q2 : EReal)) :=
  ⟨rfl, computemin_edge_three_candidates edgeState rfl⟩

end Geo
